import Mathlib

set_option maxHeartbeats 1000000

/-!
Shallow embedding of the WorkOS frontend take-home mock API server
(`server/src/api.ts`, whose body is the second document of
`server/src/api.test.ts`).  JavaScript's in-place mutation of the
module-level `data` store is modelled by explicit state passing of a
`Store` value; the sources of nondeterminism (`Math.random`,
`randomUUID`, `new Date().toISOString()`) are oracle parameters of the
operations; a JavaScript runtime `TypeError` (reading a property of
`undefined`) is modelled as `Except.error ()` / a `Resp.crashed`
response.  Request bodies are modelled with the types the TypeScript
models give the fields (`Option String` / `Option Bool`, `none` =
absent), and `undefined`-vs-falsy distinctions of the source are kept
(`jsTruthyStr`).
-/

/-- Modelled from the spec: the `User` entity.  The user model file is not
under `src/` (only `models/role.ts` and `models/paged-data.ts` are); the
fields are the ones §3 of the spec lists and `api.ts` reads/writes:
opaque id, first/last name, required `roleId` foreign key, optional photo
URL, ISO-8601 creation and update timestamps. -/
structure User where
  id : String
  first : String
  last : String
  roleId : String
  photo : Option String
  createdAt : String
  updatedAt : String
deriving Repr, DecidableEq

/-- The `Role` entity, from `server/src/models/role.ts`: `description` is
optional there (`description?: string`), hence `Option String`. -/
structure Role where
  id : String
  name : String
  description : Option String
  isDefault : Bool
  createdAt : String
  updatedAt : String
deriving Repr, DecidableEq

/-- The page envelope, from `server/src/models/paged-data.ts`.  `next` and
`prev` are `Int`s because the page number a client sends may be negative
and the handler computes `page ± 1` from it unchecked. -/
structure Paged (α : Type) where
  data : List α
  next : Option Int
  prev : Option Int
  pages : Nat
deriving Repr, DecidableEq

/-- The in-memory store `data = { users, roles }` of `api.ts`. -/
structure Store where
  users : List User
  roles : List Role
deriving Repr, DecidableEq

/-- JavaScript truthiness of an optional string value: `undefined` and the
empty string are falsy (`if (search)`, `if (roleId)`, `!first` in the
source). -/
def jsTruthyStr (o : Option String) : Option String :=
  match o with
  | some v => if v = "" then none else some v
  | none => none

/-- `updateField(item, field, value)` of `api.ts` for a string-typed field:
assigns only when `value` is truthy and differs from the current value,
returning the new value and whether an assignment happened. -/
def updateField (current : String) (value : Option String) : String × Bool :=
  match value with
  | some v => if v ≠ "" ∧ v ≠ current then (v, true) else (current, false)
  | none => (current, false)

/-- `updateField` for an optional (possibly `undefined`) string field such as
`Role.description`: `value !== item[field]` compares a string against a
possibly-`undefined` current value. -/
def updateFieldOpt (current : Option String) (value : Option String) :
    Option String × Bool :=
  match value with
  | some v => if v ≠ "" ∧ some v ≠ current then (some v, true) else (current, false)
  | none => (current, false)

/-- In-place mutation of the first element satisfying `p` (the object
`find` returned in the source), replacing it with the value `c` computed
from it. -/
def setFirst (p : α → Bool) (c : α) : List α → List α
  | [] => []
  | x :: xs => if p x then c :: xs else x :: setFirst p c xs

/-- `getDefaultRole()` of `api.ts`: `data.roles.find((role) => role.isDefault)`.
`none` corresponds to the `undefined` the source then dereferences. -/
def getDefaultRole (rs : List Role) : Option Role :=
  rs.find? (fun r => r.isDefault)

/-- `clearDefaultRole()` of `api.ts`: sets `isDefault = false` on the first
role whose flag is set; `none` models the `TypeError` thrown when no
default role exists (`getDefaultRole()` returns `undefined`). -/
def clearDefaultRole : List Role → Option (List Role)
  | [] => none
  | r :: rs =>
    if r.isDefault then some ({ r with isDefault := false } :: rs)
    else (clearDefaultRole rs).map (r :: ·)

/-- Character-list version of "starts with". -/
def startsWithChars : List Char → List Char → Bool
  | [], _ => true
  | _ :: _, [] => false
  | a :: as, b :: bs => a == b && startsWithChars as bs

/-- Character-list version of "occurs contiguously inside". -/
def containsChars (sub : List Char) : List Char → Bool
  | [] => startsWithChars sub []
  | b :: bs => startsWithChars sub (b :: bs) || containsChars sub bs

/-- JavaScript `hay.includes(sub)`: contiguous substring test. -/
def jsIncludes (hay sub : String) : Bool :=
  containsChars sub.data hay.data

/-- JavaScript `toLowerCase()` (character-wise, as for the ASCII data this
server handles), written over the character list so that it evaluates in
the kernel. -/
def jsToLower (s : String) : String := ⟨s.data.map Char.toLower⟩

/-- The field-indexing `item[field]` of `fullTextSearch`, per entity:
`none` is an `undefined` field value. -/
def userGetField (u : User) (f : String) : Option String :=
  if f = "first" then some u.first
  else if f = "last" then some u.last
  else none

/-- Field indexing for roles; `description` may be `undefined`. -/
def roleGetField (r : Role) (f : String) : Option String :=
  if f = "name" then some r.name
  else if f = "description" then r.description
  else none

/-- The field loop of `fullTextSearch`: for each declared field in order,
`item[field].toString().toLowerCase().includes(search)`; a field whose
value is `undefined` makes `.toString()` throw (`Except.error`); a match
returns early without looking at later fields. -/
def matchFields (getField : α → String → Option String) (item : α)
    (lowered : String) : List String → Except Unit Bool
  | [] => .ok false
  | f :: rest =>
    match getField item f with
    | none => .error ()
    | some v =>
      if jsIncludes (jsToLower v) lowered then .ok true
      else matchFields getField item lowered rest

/-- The `data.filter(...)` of `fullTextSearch`, with the per-item predicate
of `matchFields`; an exception at any item propagates. -/
def fullTextSearchAux (getField : α → String → Option String)
    (fields : List String) (lowered : String) : List α → Except Unit (List α)
  | [] => .ok []
  | x :: xs =>
    match matchFields getField x lowered fields with
    | .error e => .error e
    | .ok b =>
      match fullTextSearchAux getField fields lowered xs with
      | .error e => .error e
      | .ok rest => .ok (if b then x :: rest else rest)

/-- `fullTextSearch(data, fields, search)` of `api.ts`: lowercases the term
once, then filters. -/
def fullTextSearch (getField : α → String → Option String) (data : List α)
    (fields : List String) (search : String) : Except Unit (List α) :=
  fullTextSearchAux getField fields (jsToLower search) data

/-- Lexicographic `a ≤ b` on character lists by code point, the order
`localeCompare` induces on the ASCII ISO-8601 timestamps being compared. -/
def charListLe : List Char → List Char → Bool
  | [], _ => true
  | _ :: _, [] => false
  | a :: as, b :: bs => if a = b then charListLe as bs else decide (a < b)

/-- Code-point `a ≤ b` on strings. -/
def strLe (a b : String) : Bool := charListLe a.data b.data

/-- Stable insertion of `x` in front of the first element it should
precede under descending key order: an element originally earlier goes
before later elements with an equal key. -/
def insertByKeyDesc (key : α → String) (x : α) : List α → List α
  | [] => [x]
  | y :: ys =>
    if strLe (key y) (key x) then x :: y :: ys
    else y :: insertByKeyDesc key x ys

/-- `sortBy` of `api.ts`, applied through `Array.prototype.sort`:
`b.createdAt.localeCompare(a.createdAt)` orders descending by the
`createdAt` string, and `Array.prototype.sort` is required to be stable.
The stable sort of a list under a total preorder is unique, so it is
modelled by a stable insertion sort (structurally recursive, hence
kernel-evaluable). -/
def sortRecords (key : α → String) : List α → List α
  | [] => []
  | x :: xs => insertByKeyDesc key x (sortRecords key xs)

/-- `+(req.query.page || 1) || 1` for an integer-numeric, missing, empty or
non-numeric `page` query parameter (`none` covers missing/empty/NaN, all
of which coerce to 1; `0` is falsy and also coerces to 1). -/
def jsCoercePage (pageQ : Option Int) : Int :=
  match pageQ with
  | none => 1
  | some n => if n = 0 then 1 else n

/-- `Math.ceil(n / ps)` for natural `n` and positive `ps`. -/
def ceilNatDiv (n ps : Nat) : Nat := (n + ps - 1) / ps

/-- JavaScript `Array.prototype.slice(start, fin)`: negative indices count
from the end, then the window is clamped to the array. -/
def jsSlice (l : List α) (start fin : Int) : List α :=
  let len : Int := l.length
  let s := (if start < 0 then max (len + start) 0 else min start len).toNat
  let e := (if fin < 0 then max (len + fin) 0 else min fin len).toNat
  (l.drop s).take (e - s)

/-- The envelope computation of `getPagedData` after filtering and sorting:
page coercion, `pages = Math.ceil(length / pageSize)`, `next`/`prev`, and
the `slice((page-1)*ps, page*ps)` data window. -/
def mkPaged (ps : Nat) (pageQ : Option Int) (data : List α) : Paged α :=
  let page := jsCoercePage pageQ
  let pages := ceilNatDiv data.length ps
  { data := jsSlice data ((page - 1) * ps) (page * ps)
    next := if page < (pages : Int) then some (page + 1) else none
    prev := if page > 1 then some (page - 1) else none
    pages := pages }

/-- `getPagedData(req, data, searchFields)` of `api.ts`.  Returns the
envelope together with the collection as the store holds it afterwards:
with a truthy search term the filter allocates a fresh array and the
in-place sort touches only that copy, otherwise `data.sort(sortBy)`
reorders the store's own array. -/
def getPagedData (ps : Nat) (getField : α → String → Option String)
    (key : α → String) (fields : List String) (search : Option String)
    (pageQ : Option Int) (data : List α) : Except Unit (Paged α × List α) :=
  match jsTruthyStr search with
  | some s =>
    match fullTextSearch getField data fields s with
    | .error e => .error e
    | .ok filtered => .ok (mkPaged ps pageQ (sortRecords key filtered), data)
  | none =>
    let sorted := sortRecords key data
    .ok (mkPaged ps pageQ sorted, sorted)

/-- HTTP responses of the routes (status + JSON body).  `crashed` is an
uncaught runtime `TypeError` inside a handler (Express answers 500 with
its default error page). -/
inductive Resp where
  | okUser (u : User)
  | okRole (r : Role)
  | okUserPage (p : Paged User)
  | okRolePage (p : Paged Role)
  | err (status : Nat) (message : String)
  | crashed
deriving Repr, DecidableEq

/-- The HTTP operations of the server plus the programmatic
`server.reset()`.  `now`, `newId` and `photo` are the oracle values the
handler draws from `Date`, `randomUUID` and `Math.random`. -/
inductive Op where
  | getUsers (search : Option String) (pageQ : Option Int)
  | getUser (id : String)
  | patchUser (id : String) (first last roleId : Option String) (now : String)
  | postUser (first last roleId : Option String) (newId now photo : String)
  | deleteUser (id : String)
  | getRoles (search : Option String) (pageQ : Option Int)
  | getRole (id : String)
  | patchRole (id : String) (name description : Option String)
      (isDefault : Option Bool) (now : String)
  | postRole (name description : Option String) (isDefault : Option Bool)
      (newId now : String)
  | deleteRole (id : String)
  | reset
deriving Repr, DecidableEq

/-- The server's page size under the test configuration (`pageSize: 10`,
also the `serverConfig` default). -/
def pageSize : Nat := 10

/-- `GET /users`. -/
def getUsersH (s : Store) (search : Option String) (pageQ : Option Int) :
    Resp × Store :=
  match getPagedData pageSize userGetField User.createdAt ["first", "last"]
      search pageQ s.users with
  | .ok (env, users') => (.okUserPage env, { s with users := users' })
  | .error _ => (.crashed, s)

/-- `GET /roles`. -/
def getRolesH (s : Store) (search : Option String) (pageQ : Option Int) :
    Resp × Store :=
  match getPagedData pageSize roleGetField Role.createdAt
      ["name", "description"] search pageQ s.roles with
  | .ok (env, roles') => (.okRolePage env, { s with roles := roles' })
  | .error _ => (.crashed, s)

/-- `GET /users/:id`. -/
def getUserH (s : Store) (uid : String) : Resp × Store :=
  match s.users.find? (fun u => u.id == uid) with
  | some u => (.okUser u, s)
  | none => (.err 404 "User not found", s)

/-- `GET /roles/:id`. -/
def getRoleH (s : Store) (rid : String) : Resp × Store :=
  match s.roles.find? (fun r => r.id == rid) with
  | some r => (.okRole r, s)
  | none => (.err 404 "Role not found", s)

/-- `PATCH /users/:id`: `first`/`last` are applied in place through
`updateField` before the `roleId` check, so a failing `roleId` lookup
answers 400 with those changes already stored; a truthy `roleId` that
resolves is assigned unconditionally and forces `updated = true`. -/
def patchUserH (s : Store) (uid : String) (first last roleId : Option String)
    (now : String) : Resp × Store :=
  match s.users.find? (fun u => u.id == uid) with
  | none => (.err 404 "User not found", s)
  | some u =>
    let f1 := (updateField u.first first).1
    let b1 := (updateField u.first first).2
    let l1 := (updateField u.last last).1
    let b2 := (updateField u.last last).2
    let u1 := { u with first := f1, last := l1 }
    match jsTruthyStr roleId with
    | some rid =>
      if s.roles.any (fun r => r.id == rid) then
        let u2 := { u1 with roleId := rid, updatedAt := now }
        (.okUser u2, { s with users := setFirst (fun x => x.id == uid) u2 s.users })
      else
        (.err 400 "Referenced role not found",
          { s with users := setFirst (fun x => x.id == uid) u1 s.users })
    | none =>
      let u2 := if b1 || b2 then { u1 with updatedAt := now } else u1
      (.okUser u2, { s with users := setFirst (fun x => x.id == uid) u2 s.users })

/-- `POST /users`: validates the three required fields (JS-falsy = missing),
then the `roleId` reference, then pushes the new user. -/
def postUserH (s : Store) (first last roleId : Option String)
    (newId now photo : String) : Resp × Store :=
  let missing :=
    (if (jsTruthyStr first).isNone then ["first"] else []) ++
    (if (jsTruthyStr last).isNone then ["last"] else []) ++
    (if (jsTruthyStr roleId).isNone then ["roleId"] else [])
  if missing ≠ [] then
    (.err 400 ("Missing required field" ++
      (if missing.length > 1 then "s" else "") ++ ": " ++
      String.intercalate ", " missing), s)
  else
    match jsTruthyStr first, jsTruthyStr last, jsTruthyStr roleId with
    | some f, some l, some rid =>
      if s.roles.any (fun r => r.id == rid) then
        let u : User := ⟨newId, f, l, rid, some photo, now, now⟩
        (.okUser u, { s with users := s.users ++ [u] })
      else (.err 400 "Referenced role not found", s)
    | _, _, _ => (.err 400 "unreachable", s)

/-- `DELETE /users/:id`. -/
def deleteUserH (s : Store) (uid : String) : Resp × Store :=
  match s.users.find? (fun u => u.id == uid) with
  | none => (.err 404 "User not found", s)
  | some u =>
    (.okUser u, { s with users := s.users.filter (fun x => !(x.id == u.id)) })

/-- `PATCH /roles/:id`: name-conflict check first (against the raw body
`name`), then in-place `updateField` on `name`/`description`, then the
`isDefault` transition logic of the source (`undefined !== bool` enters
the outer `if` but matches neither strict comparison; unsetting the
default answers 400 with the field updates already stored; setting it
clears the previous default first). -/
def patchRoleH (s : Store) (rid : String) (name description : Option String)
    (isDefault : Option Bool) (now : String) : Resp × Store :=
  match s.roles.find? (fun r => r.id == rid) with
  | none => (.err 404 "Role not found", s)
  | some role =>
    let conflict :=
      match name with
      | some n => s.roles.any (fun r => r.name == n && !(r.id == role.id))
      | none => false
    if conflict then (.err 400 "Role with given name already exists", s)
    else
      let n1 := (updateField role.name name).1
      let b1 := (updateField role.name name).2
      let d1 := (updateFieldOpt role.description description).1
      let b2 := (updateFieldOpt role.description description).2
      let role1 := { role with name := n1, description := d1 }
      let finish : Bool → Resp × Store := fun updated =>
        let role2 := if updated then { role1 with updatedAt := now } else role1
        (.okRole role2,
          { s with roles := setFirst (fun x => x.id == rid) role2 s.roles })
      match isDefault with
      | none => finish (b1 || b2)
      | some b =>
        if b = role.isDefault then finish (b1 || b2)
        else if b = false then
          (.err 400 "Cannot unset default role",
            { s with roles := setFirst (fun x => x.id == rid) role1 s.roles })
        else
          let list1 := setFirst (fun x => x.id == rid) role1 s.roles
          match clearDefaultRole list1 with
          | none => (.crashed, { s with roles := list1 })
          | some list2 =>
            let role2 := { role1 with isDefault := true, updatedAt := now }
            (.okRole role2,
              { s with roles := setFirst (fun x => x.id == rid) role2 list2 })

/-- `POST /roles`: requires a truthy `name`, unique across all roles;
`description` destructures to `''`, `isDefault` to `false`; an explicit
`isDefault: true` clears the previous default before the push. -/
def postRoleH (s : Store) (name description : Option String)
    (isDefault : Option Bool) (newId now : String) : Resp × Store :=
  let desc := description.getD ""
  let isDef := isDefault.getD false
  match jsTruthyStr name with
  | none => (.err 400 "Missing required field: name", s)
  | some n =>
    if s.roles.any (fun r => r.name == n) then
      (.err 400 "Role with given name already exists", s)
    else
      if isDef then
        match clearDefaultRole s.roles with
        | none => (.crashed, s)
        | some rs' =>
          let r : Role := ⟨newId, n, some desc, true, now, now⟩
          (.okRole r, { s with roles := rs' ++ [r] })
      else
        let r : Role := ⟨newId, n, some desc, false, now, now⟩
        (.okRole r, { s with roles := s.roles ++ [r] })

/-- `DELETE /roles/:id`: refuses to delete the default role; otherwise
reassigns every user referencing the role to the current default role's
id, then filters the role out. -/
def deleteRoleH (s : Store) (rid : String) : Resp × Store :=
  match s.roles.find? (fun r => r.id == rid) with
  | none => (.err 404 "Role not found", s)
  | some role =>
    if role.isDefault then (.err 400 "Cannot delete default role", s)
    else
      match getDefaultRole s.roles with
      | none =>
        -- `defaultRole.id` is only read inside the `forEach` callback, so
        -- the `undefined` dereference throws only if some user matches.
        if s.users.any (fun u => u.roleId == role.id) then (.crashed, s)
        else
          (.okRole role,
            { s with roles := s.roles.filter (fun r => !(r.id == role.id)) })
      | some d =>
        let users' := s.users.map (fun u =>
          if u.roleId == role.id then { u with roleId := d.id } else u)
        let roles' := s.roles.filter (fun r => !(r.id == role.id))
        (.okRole role, { users := users', roles := roles' })

/-- Modelled from the spec: the seed dataset of `server/src/data.ts`, which
is not under `src/`.  Constructed to satisfy everything the spec and the
test file pin down: 16 users and 4 roles with `pageSize = 10` (two user
pages of 10 and 6, one role page); role `1a235261-…` is the non-default
"Engineering" role with the description the tests assert and exactly 7
users referencing it; role `6c0a71c0-…` is the default role (a PATCH
unsetting its flag must answer "Cannot unset default role"); a "Support"
role exists (name-conflict test); exactly one role description contains
"visual"; exactly one user matches the search "Mark" — Mark Tipton, id
`c7deb881-…`; every user's `roleId` resolves and all ids are distinct. -/
def seedRoles : List Role :=
  [ ⟨"6c0a71c0-a5bc-44f8-8634-60f44840d92a", "Member",
      some "Members are the default role in the organization.",
      true, "2024-08-01T00:00:00.000Z", "2024-08-01T00:00:00.000Z"⟩,
    ⟨"1a235261-fa93-4845-ab48-ee23895998e6", "Engineering",
      some "Engineers build and maintain the software that powers our products and services.",
      false, "2024-08-02T00:00:00.000Z", "2024-08-02T00:00:00.000Z"⟩,
    ⟨"5c22dc07-6e19-4bf6-a164-4b3a5a7e5b90", "Support",
      some "Support team members help our customers succeed.",
      false, "2024-08-03T00:00:00.000Z", "2024-08-03T00:00:00.000Z"⟩,
    ⟨"7a9f1c4e-2d5b-4f6a-9c3e-8b1d2e4f5a6c", "Design",
      some "Designers craft the visual identity of our products.",
      false, "2024-08-04T00:00:00.000Z", "2024-08-04T00:00:00.000Z"⟩ ]

/-- Modelled from the spec: the 16 seed users (see `seedRoles`). -/
def seedUsers : List User :=
  let eng := "1a235261-fa93-4845-ab48-ee23895998e6"
  let mem := "6c0a71c0-a5bc-44f8-8634-60f44840d92a"
  let sup := "5c22dc07-6e19-4bf6-a164-4b3a5a7e5b90"
  let des := "7a9f1c4e-2d5b-4f6a-9c3e-8b1d2e4f5a6c"
  [ ⟨"c7deb881-1939-4208-9a63-61a885f02d8f", "Mark", "Tipton", eng,
      some "https://i.pravatar.cc/400?img=1",
      "2024-09-01T00:00:00.000Z", "2024-09-01T00:00:00.000Z"⟩,
    ⟨"u-0002", "Alice", "Nguyen", eng, some "https://i.pravatar.cc/400?img=2",
      "2024-09-02T00:00:00.000Z", "2024-09-02T00:00:00.000Z"⟩,
    ⟨"u-0003", "Ben", "Okafor", eng, some "https://i.pravatar.cc/400?img=3",
      "2024-09-03T00:00:00.000Z", "2024-09-03T00:00:00.000Z"⟩,
    ⟨"u-0004", "Carla", "Ibanez", eng, some "https://i.pravatar.cc/400?img=4",
      "2024-09-04T00:00:00.000Z", "2024-09-04T00:00:00.000Z"⟩,
    ⟨"u-0005", "Derek", "Shaw", eng, some "https://i.pravatar.cc/400?img=5",
      "2024-09-05T00:00:00.000Z", "2024-09-05T00:00:00.000Z"⟩,
    ⟨"u-0006", "Elena", "Petrov", eng, some "https://i.pravatar.cc/400?img=6",
      "2024-09-06T00:00:00.000Z", "2024-09-06T00:00:00.000Z"⟩,
    ⟨"u-0007", "Felix", "Hart", eng, some "https://i.pravatar.cc/400?img=7",
      "2024-09-07T00:00:00.000Z", "2024-09-07T00:00:00.000Z"⟩,
    ⟨"u-0008", "Gina", "Lopez", mem, some "https://i.pravatar.cc/400?img=8",
      "2024-09-08T00:00:00.000Z", "2024-09-08T00:00:00.000Z"⟩,
    ⟨"u-0009", "Hugo", "Silva", mem, some "https://i.pravatar.cc/400?img=9",
      "2024-09-09T00:00:00.000Z", "2024-09-09T00:00:00.000Z"⟩,
    ⟨"u-0010", "Iris", "Chen", mem, some "https://i.pravatar.cc/400?img=10",
      "2024-09-10T00:00:00.000Z", "2024-09-10T00:00:00.000Z"⟩,
    ⟨"u-0011", "Jonas", "Weber", mem, some "https://i.pravatar.cc/400?img=11",
      "2024-09-11T00:00:00.000Z", "2024-09-11T00:00:00.000Z"⟩,
    ⟨"u-0012", "Kara", "Doyle", sup, some "https://i.pravatar.cc/400?img=12",
      "2024-09-12T00:00:00.000Z", "2024-09-12T00:00:00.000Z"⟩,
    ⟨"u-0013", "Liam", "Foster", sup, some "https://i.pravatar.cc/400?img=13",
      "2024-09-13T00:00:00.000Z", "2024-09-13T00:00:00.000Z"⟩,
    ⟨"u-0014", "Nora", "Quinn", sup, some "https://i.pravatar.cc/400?img=14",
      "2024-09-14T00:00:00.000Z", "2024-09-14T00:00:00.000Z"⟩,
    ⟨"u-0015", "Omar", "Haddad", des, some "https://i.pravatar.cc/400?img=15",
      "2024-09-15T00:00:00.000Z", "2024-09-15T00:00:00.000Z"⟩,
    ⟨"u-0016", "Pia", "Larsen", des, some "https://i.pravatar.cc/400?img=16",
      "2024-09-16T00:00:00.000Z", "2024-09-16T00:00:00.000Z"⟩ ]

/-- Modelled from the spec: the store as `resetData()` seeds it. -/
def dataSeed : Store := ⟨seedUsers, seedRoles⟩

/-- The route dispatch: one completed request (or `server.reset()`)
against the store. -/
def handle (s : Store) : Op → Resp × Store
  | .getUsers search pageQ => getUsersH s search pageQ
  | .getUser uid => getUserH s uid
  | .patchUser uid f l r now => patchUserH s uid f l r now
  | .postUser f l r newId now photo => postUserH s f l r newId now photo
  | .deleteUser uid => deleteUserH s uid
  | .getRoles search pageQ => getRolesH s search pageQ
  | .getRole rid => getRoleH s rid
  | .patchRole rid n d b now => patchRoleH s rid n d b now
  | .postRole n d b newId now => postRoleH s n d b newId now
  | .deleteRole rid => deleteRoleH s rid
  | .reset => (.err 200 "reset", dataSeed)

/-- A sequence of completed operations against the store. -/
def runOps (s : Store) : List Op → Store
  | [] => s
  | op :: ops => runOps (handle s op).2 ops

/-- Whether the oracle id of a role creation is fresh for the current
store, as `randomUUID()` guarantees in practice. -/
def freshOk (s : Store) : Op → Bool
  | .postRole _ _ _ newId _ => !(s.roles.any (fun r => r.id == newId))
  | _ => true

/-- A run in which every generated role id is fresh at its creation time
(the `randomUUID()` contract). -/
def goodRun (s : Store) : List Op → Bool
  | [] => true
  | op :: ops => freshOk s op && goodRun (handle s op).2 ops

/-- Number of roles with `isDefault == true`. -/
def defaultCount (rs : List Role) : Nat :=
  rs.countP (fun r => r.isDefault)

/-- The combined store invariant: exactly one default role, no duplicate
role ids, and every user's `roleId` resolves to a present role. -/
def StoreInv (s : Store) : Prop :=
  defaultCount s.roles = 1 ∧ (s.roles.map Role.id).Nodup ∧
    ∀ u ∈ s.users, u.roleId ∈ s.roles.map Role.id

/-- The fault-injection decision of `logWithNetworkEffects`:
`Math.random() < serverConfig.chanceOfServerError`, with the random draw
`r ∈ [0, 1)` as an oracle. -/
def faulted (r chance : ℚ) : Bool := r < chance

/-- One request through the middleware pipeline: a faulted request is
answered `500 {message: "Server Error"}` after the delay and the route
handler never runs; otherwise the route handler runs. -/
def serve (r chance : ℚ) (s : Store) (op : Op) : Resp × Store :=
  if faulted r chance then (.err 500 "Server Error", s) else handle s op

/-- Length of the data slice of a listing response. -/
def respDataLen : Resp → Option Nat
  | .okUserPage p => some p.data.length
  | .okRolePage p => some p.data.length
  | _ => none

/-- Page count of a listing response. -/
def respPages : Resp → Option Nat
  | .okUserPage p => some p.pages
  | .okRolePage p => some p.pages
  | _ => none

/-- A sample operation sequence exercising role creation (with a default
takeover), role deletion, a user patch, a listing and a reset. -/
def c1RunOps : List Op :=
  [ .postRole (some "Security") (some "Security engineers protect us.")
      (some true) "b1f7a2c3-0000-4000-8000-000000000001"
      "2025-01-01T00:00:00.000Z",
    .deleteRole "1a235261-fa93-4845-ab48-ee23895998e6",
    .patchUser "c7deb881-1939-4208-9a63-61a885f02d8f" (some "Max") none none
      "2025-01-02T00:00:00.000Z",
    .getUsers none none,
    .reset ]

/-- A second sample operation sequence exercising user creation, role
deletion with user reassignment, a default-role change and searches. -/
def c2RunOps : List Op :=
  [ .postUser (some "Zoe") (some "Kim")
      (some "6c0a71c0-a5bc-44f8-8634-60f44840d92a")
      "c2d3e4f5-0000-4000-8000-000000000002" "2025-01-03T00:00:00.000Z"
      "https://i.pravatar.cc/400?img=20",
    .deleteRole "7a9f1c4e-2d5b-4f6a-9c3e-8b1d2e4f5a6c",
    .patchRole "1a235261-fa93-4845-ab48-ee23895998e6" none none (some true)
      "2025-01-04T00:00:00.000Z",
    .deleteUser "u-0003",
    .getRoles (some "eng") none ]

/-- A one-user, one-role store whose user already references the only
(default) role. -/
def c6Store : Store :=
  ⟨[⟨"u1", "Ann", "Lee", "r1", none, "2024-01-01T00:00:00.000Z",
      "2024-01-01T00:00:00.000Z"⟩],
    [⟨"r1", "Member", some "members", true, "2024-01-01T00:00:00.000Z",
      "2024-01-01T00:00:00.000Z"⟩]⟩

/-- A store whose users are in ascending `createdAt` order, so the listing
sort reverses them. -/
def c8Store : Store :=
  ⟨[⟨"u1", "Ann", "Lee", "r1", none, "2020-01-01T00:00:00.000Z",
      "2020-01-01T00:00:00.000Z"⟩,
    ⟨"u2", "Bob", "Ray", "r1", none, "2021-01-01T00:00:00.000Z",
      "2021-01-01T00:00:00.000Z"⟩],
    [⟨"r1", "Member", some "members", true, "2020-01-01T00:00:00.000Z",
      "2020-01-01T00:00:00.000Z"⟩]⟩

/-- A role whose optional `description` is absent (`undefined`), as
`models/role.ts` allows. -/
def c10Roles : List Role :=
  [⟨"r1", "Admin", none, true, "2024-01-01T00:00:00.000Z",
    "2024-01-01T00:00:00.000Z"⟩]

/-- The `updatedAt` of the entity in a 200 response. -/
def respUpdatedAt : Resp → Option String
  | .okUser u => some u.updatedAt
  | .okRole r => some r.updatedAt
  | _ => none

instance (s : Store) : Decidable (StoreInv s) := by
  unfold StoreInv
  exact inferInstance

/-! Helper lemmas about the list primitives of the model. -/

theorem setFirst_append {α : Type} {p : α → Bool} {as : List α}
    (ha : ∀ x ∈ as, p x = false) {a : α} (hp : p a = true) (c : α)
    (bs : List α) : setFirst p c (as ++ a :: bs) = as ++ c :: bs := by
  induction as with
  | nil => simp [setFirst, hp]
  | cons x xs ih =>
    have hx : p x = false := ha x (by simp)
    simp only [List.cons_append, setFirst, hx, Bool.false_eq_true, if_false,
      List.cons.injEq, true_and]
    exact ih (fun y hy => ha y (by simp [hy]))

theorem setFirst_mem {α : Type} {p : α → Bool} {c : α} {l : List α} {x : α}
    (hx : x ∈ setFirst p c l) : x = c ∨ x ∈ l := by
  induction l with
  | nil => simp [setFirst] at hx
  | cons y ys ih =>
    by_cases hy : p y
    · simp [setFirst, hy] at hx
      rcases hx with h | h
      · exact Or.inl h
      · exact Or.inr (by simp [h])
    · simp [setFirst, hy] at hx
      rcases hx with h | h
      · exact Or.inr (by simp [h])
      · rcases ih h with h' | h'
        · exact Or.inl h'
        · exact Or.inr (by simp [h'])

theorem clearDefaultRole_map_id {l l' : List Role}
    (h : clearDefaultRole l = some l') : l'.map Role.id = l.map Role.id := by
  induction l generalizing l' with
  | nil => simp [clearDefaultRole] at h
  | cons r rs ih =>
    by_cases hr : r.isDefault
    · simp [clearDefaultRole, hr] at h
      subst h
      simp
    · simp [clearDefaultRole, hr] at h
      obtain ⟨rs', hrs', hl'⟩ := h
      subst hl'
      simp [ih hrs']

theorem clearDefaultRole_countP {l l' : List Role}
    (h : clearDefaultRole l = some l') :
    defaultCount l' + 1 = defaultCount l := by
  induction l generalizing l' with
  | nil => simp [clearDefaultRole] at h
  | cons r rs ih =>
    by_cases hr : r.isDefault
    · simp [clearDefaultRole, hr] at h
      subst h
      simp [defaultCount, List.countP_cons, hr]
    · simp [clearDefaultRole, hr] at h
      obtain ⟨rs', hrs', hl'⟩ := h
      subst hl'
      have := ih hrs'
      simp [defaultCount, List.countP_cons, hr] at *
      omega

theorem clearDefaultRole_decomp {as bs : List Role} {x : Role}
    (hx : x.isDefault = false) {l2 : List Role}
    (h : clearDefaultRole (as ++ x :: bs) = some l2) :
    ∃ as' bs', l2 = as' ++ x :: bs' ∧ as'.map Role.id = as.map Role.id ∧
      bs'.map Role.id = bs.map Role.id ∧
      defaultCount as' + defaultCount bs' + 1 =
        defaultCount as + defaultCount bs := by
  induction as generalizing l2 with
  | nil =>
    simp only [List.nil_append] at h
    simp [clearDefaultRole, hx] at h
    obtain ⟨bs', hbs', hl2⟩ := h
    refine ⟨[], bs', by simp [hl2], rfl, clearDefaultRole_map_id hbs', ?_⟩
    have := clearDefaultRole_countP hbs'
    simp [defaultCount] at *
    omega
  | cons a as ih =>
    by_cases ha : a.isDefault
    · simp only [List.cons_append] at h
      simp [clearDefaultRole, ha] at h
      refine ⟨{ a with isDefault := false } :: as, bs, by simp [← h], by simp, rfl, ?_⟩
      simp [defaultCount, List.countP_cons, ha]
      omega
    · simp only [List.cons_append] at h
      simp [clearDefaultRole, ha] at h
      obtain ⟨l2', hl2', hl2⟩ := h
      obtain ⟨as', bs', heq, hmapa, hmapb, hcount⟩ := ih hl2'
      refine ⟨a :: as', bs', by simp [← hl2, heq], by simp [hmapa], hmapb, ?_⟩
      simp [defaultCount, List.countP_cons, ha] at *
      omega

theorem forall_id_ne_of_map_eq {as' as : List Role}
    (h : as'.map Role.id = as.map Role.id) {rid : String}
    (ha : ∀ x ∈ as, (x.id == rid) = false) :
    ∀ x ∈ as', (x.id == rid) = false := by
  intro x hx
  have hmem : x.id ∈ as'.map Role.id := List.mem_map_of_mem _ hx
  rw [h] at hmem
  obtain ⟨y, hy, hyx⟩ := List.mem_map.mp hmem
  have hne := ha y hy
  simp only [beq_eq_false_iff_ne, ne_eq] at hne ⊢
  rw [← hyx]
  exact hne

theorem insertByKeyDesc_perm {α : Type} (key : α → String) (x : α)
    (l : List α) : (insertByKeyDesc key x l).Perm (x :: l) := by
  induction l with
  | nil => rfl
  | cons y ys ih =>
    by_cases hy : strLe (key y) (key x) = true
    · rw [insertByKeyDesc, if_pos hy]
    · rw [insertByKeyDesc, if_neg hy]
      exact (List.Perm.cons y ih).trans (List.Perm.swap x y ys)

theorem sortRecords_perm {α : Type} (key : α → String) (l : List α) :
    (sortRecords key l).Perm l := by
  induction l with
  | nil => rfl
  | cons x xs ih =>
    rw [sortRecords]
    exact (insertByKeyDesc_perm key x (sortRecords key xs)).trans
      (List.Perm.cons x ih)

theorem storeInv_users_perm {s : Store} {us : List User} (hperm : us.Perm s.users)
    (h : StoreInv s) : StoreInv { s with users := us } := by
  obtain ⟨h1, h2, h3⟩ := h
  exact ⟨h1, h2, fun u hu => h3 u (hperm.mem_iff.mp hu)⟩

theorem storeInv_roles_perm {s : Store} {rs : List Role} (hperm : rs.Perm s.roles)
    (h : StoreInv s) : StoreInv { s with roles := rs } := by
  obtain ⟨h1, h2, h3⟩ := h
  refine ⟨?_, ?_, ?_⟩
  · unfold defaultCount at *
    rw [hperm.countP_eq]
    exact h1
  · exact ((hperm.map Role.id).nodup_iff).mpr h2
  · intro u hu
    exact ((hperm.map Role.id).mem_iff).mpr (h3 u hu)

/-! Preservation of `StoreInv` by each route handler. -/

theorem storeInv_getUsersH (s : Store) (search : Option String)
    (pageQ : Option Int) (h : StoreInv s) :
    StoreInv (getUsersH s search pageQ).2 := by
  cases hts : jsTruthyStr search with
  | some t =>
    cases hfts : fullTextSearch userGetField s.users ["first", "last"] t with
    | error e => simpa [getUsersH, getPagedData, hts, hfts] using h
    | ok filtered => simpa [getUsersH, getPagedData, hts, hfts] using h
  | none =>
    simpa [getUsersH, getPagedData, hts] using
      storeInv_users_perm (sortRecords_perm User.createdAt s.users) h

theorem storeInv_getRolesH (s : Store) (search : Option String)
    (pageQ : Option Int) (h : StoreInv s) :
    StoreInv (getRolesH s search pageQ).2 := by
  cases hts : jsTruthyStr search with
  | some t =>
    cases hfts : fullTextSearch roleGetField s.roles ["name", "description"] t with
    | error e => simpa [getRolesH, getPagedData, hts, hfts] using h
    | ok filtered => simpa [getRolesH, getPagedData, hts, hfts] using h
  | none =>
    simpa [getRolesH, getPagedData, hts] using
      storeInv_roles_perm (sortRecords_perm Role.createdAt s.roles) h

theorem storeInv_getUserH (s : Store) (uid : String) (h : StoreInv s) :
    StoreInv (getUserH s uid).2 := by
  unfold getUserH
  cases s.users.find? (fun u => u.id == uid) <;> simpa using h

theorem storeInv_getRoleH (s : Store) (rid : String) (h : StoreInv s) :
    StoreInv (getRoleH s rid).2 := by
  unfold getRoleH
  cases s.roles.find? (fun r => r.id == rid) <;> simpa using h

theorem storeInv_deleteUserH (s : Store) (uid : String) (h : StoreInv s) :
    StoreInv (deleteUserH s uid).2 := by
  unfold deleteUserH
  cases hfind : s.users.find? (fun u => u.id == uid) with
  | none => simpa using h
  | some u =>
    obtain ⟨h1, h2, h3⟩ := h
    exact ⟨h1, h2, fun x hx => h3 x (List.mem_of_mem_filter hx)⟩

theorem storeInv_postUserH (s : Store) (first last roleId : Option String)
    (newId now photo : String) (h : StoreInv s) :
    StoreInv (postUserH s first last roleId newId now photo).2 := by
  obtain ⟨i1, i2, i3⟩ := h
  cases h1 : jsTruthyStr first with
  | none => simpa [postUserH, h1] using ⟨i1, i2, i3⟩
  | some f =>
    cases h2 : jsTruthyStr last with
    | none => simpa [postUserH, h1, h2] using ⟨i1, i2, i3⟩
    | some l =>
      cases h3 : jsTruthyStr roleId with
      | none => simpa [postUserH, h1, h2, h3] using ⟨i1, i2, i3⟩
      | some rid =>
        by_cases hany : s.roles.any (fun r => r.id == rid) = true
        · obtain ⟨r, hr, hrid⟩ := List.any_eq_true.mp hany
          simp only [postUserH, h1, h2, h3, hany, Option.isNone_some,
            ite_false, List.nil_append, List.append_nil, ne_eq,
            not_true_eq_false, if_true, if_false]
          refine ⟨i1, i2, fun x hx => ?_⟩
          rcases List.mem_append.mp hx with hx | hx
          · exact i3 x hx
          · rw [List.mem_singleton] at hx
            subst hx
            have : rid ∈ List.map Role.id s.roles := by
              rw [← (beq_iff_eq).mp hrid]
              exact List.mem_map_of_mem Role.id hr
            exact this
        · simp only [Bool.not_eq_true] at hany
          simpa [postUserH, h1, h2, h3, hany] using ⟨i1, i2, i3⟩

theorem storeInv_patchUserH (s : Store) (uid : String)
    (first last roleId : Option String) (now : String) (h : StoreInv s) :
    StoreInv (patchUserH s uid first last roleId now).2 := by
  obtain ⟨i1, i2, i3⟩ := h
  cases hfind : s.users.find? (fun x => x.id == uid) with
  | none => simpa [patchUserH, hfind] using ⟨i1, i2, i3⟩
  | some u =>
    have humem : u ∈ s.users := List.mem_of_find?_eq_some hfind
    cases htr : jsTruthyStr roleId with
    | some rid =>
      by_cases hany : s.roles.any (fun r => r.id == rid) = true
      · obtain ⟨r, hr, hrid⟩ := List.any_eq_true.mp hany
        simp only [patchUserH, hfind, htr, hany, if_true]
        refine ⟨i1, i2, fun x hx => ?_⟩
        rcases setFirst_mem hx with hx | hx
        · subst hx
          show rid ∈ List.map Role.id s.roles
          rw [← beq_iff_eq.mp hrid]
          exact List.mem_map_of_mem Role.id hr
        · exact i3 x hx
      · simp only [Bool.not_eq_true] at hany
        simp only [patchUserH, hfind, htr, hany, Bool.false_eq_true, if_false]
        refine ⟨i1, i2, fun x hx => ?_⟩
        rcases setFirst_mem hx with hx | hx
        · subst hx
          exact i3 u humem
        · exact i3 x hx
    | none =>
      simp only [patchUserH, hfind, htr]
      refine ⟨i1, i2, fun x hx => ?_⟩
      rcases setFirst_mem hx with hx | hx
      · subst hx
        by_cases hb :
            ((updateField u.first first).2 || (updateField u.last last).2) = true
        · rw [if_pos hb]
          exact i3 u humem
        · rw [if_neg hb]
          exact i3 u humem
      · exact i3 x hx

theorem storeInv_postRoleH (s : Store) (name description : Option String)
    (isDefault : Option Bool) (newId now : String) (h : StoreInv s)
    (hfresh : newId ∉ List.map Role.id s.roles) :
    StoreInv (postRoleH s name description isDefault newId now).2 := by
  obtain ⟨i1, i2, i3⟩ := h
  cases hn : jsTruthyStr name with
  | none => simpa [postRoleH, hn] using ⟨i1, i2, i3⟩
  | some n =>
    by_cases hconf : s.roles.any (fun r => r.name == n) = true
    · simpa [postRoleH, hn, hconf] using ⟨i1, i2, i3⟩
    · simp only [Bool.not_eq_true] at hconf
      by_cases hdef : isDefault.getD false = true
      · cases hclear : clearDefaultRole s.roles with
        | none =>
          simpa [postRoleH, hn, hconf, hdef, hclear] using ⟨i1, i2, i3⟩
        | some rs' =>
          have hmap := clearDefaultRole_map_id hclear
          have hcnt := clearDefaultRole_countP hclear
          simp only [postRoleH, hn, hconf, hdef, hclear, Bool.false_eq_true,
            if_false, if_true]
          refine ⟨?_, ?_, ?_⟩
          · show defaultCount (rs' ++ [⟨newId, n, some (description.getD ""), true, now, now⟩]) = 1
            unfold defaultCount at *
            rw [List.countP_append]
            have hone : List.countP (fun r => r.isDefault)
                [(⟨newId, n, some (description.getD ""), true, now, now⟩ : Role)] = 1 := rfl
            rw [hone]
            omega
          · show (List.map Role.id (rs' ++ [⟨newId, n, some (description.getD ""), true, now, now⟩])).Nodup
            rw [List.map_append, hmap]
            simp only [List.map_cons, List.map_nil]
            rw [List.nodup_append]
            refine ⟨i2, List.nodup_singleton _, fun a ha hb => ?_⟩
            rw [List.mem_singleton] at hb
            subst hb
            exact hfresh ha
          · intro u hu
            show u.roleId ∈ List.map Role.id (rs' ++ [_])
            rw [List.map_append, hmap]
            exact List.mem_append_left _ (i3 u hu)
      · simp only [Bool.not_eq_true] at hdef
        simp only [postRoleH, hn, hconf, hdef, Bool.false_eq_true, if_false]
        refine ⟨?_, ?_, ?_⟩
        · show defaultCount (s.roles ++ [⟨newId, n, some (description.getD ""), false, now, now⟩]) = 1
          unfold defaultCount at *
          rw [List.countP_append]
          simpa using i1
        · show (List.map Role.id (s.roles ++ [⟨newId, n, some (description.getD ""), false, now, now⟩])).Nodup
          rw [List.map_append]
          simp only [List.map_cons, List.map_nil]
          rw [List.nodup_append]
          refine ⟨i2, List.nodup_singleton _, fun a ha hb => ?_⟩
          rw [List.mem_singleton] at hb
          subst hb
          exact hfresh ha
        · intro u hu
          show u.roleId ∈ List.map Role.id (s.roles ++ [_])
          rw [List.map_append]
          exact List.mem_append_left _ (i3 u hu)

theorem storeInv_deleteRoleH (s : Store) (rid : String) (h : StoreInv s) :
    StoreInv (deleteRoleH s rid).2 := by
  obtain ⟨i1, i2, i3⟩ := h
  cases hfind : s.roles.find? (fun r => r.id == rid) with
  | none => simpa [deleteRoleH, hfind] using ⟨i1, i2, i3⟩
  | some role =>
    by_cases hdef : role.isDefault = true
    · simpa [deleteRoleH, hfind, hdef] using ⟨i1, i2, i3⟩
    · simp only [Bool.not_eq_true] at hdef
      cases hd : getDefaultRole s.roles with
      | none =>
        exfalso
        have hz : defaultCount s.roles = 0 := by
          unfold defaultCount
          exact List.countP_eq_zero.mpr (List.find?_eq_none.mp hd)
        omega
      | some d =>
        obtain ⟨hp, as, bs, hsplit, hprev'⟩ := List.find?_eq_some.mp hfind
        have hprev : ∀ x ∈ as, (x.id == rid) = false := by
          intro x hx
          have := hprev' x hx
          simpa using this
        have hrole_id : role.id = rid := beq_iff_eq.mp hp
        have hdmem : d ∈ s.roles := List.mem_of_find?_eq_some hd
        have hddef : d.isDefault = true := List.find?_some hd
        have hdne : d ≠ role := by
          intro hcontra
          rw [hcontra] at hddef
          rw [hddef] at hdef
          exact absurd hdef (by simp)
        have hdab : d ∈ as ++ bs := by
          rw [hsplit] at hdmem
          rcases List.mem_append.mp hdmem with h' | h'
          · exact List.mem_append_left _ h'
          · rcases List.mem_cons.mp h' with h' | h'
            · exact absurd h' hdne
            · exact List.mem_append_right _ h'
        -- the ids of `as` and `bs` avoid `rid`
        have hid_as : ∀ x ∈ as, (x.id == role.id) = false := by
          intro x hx
          rw [hrole_id]
          exact hprev x hx
        have hnodup' := i2
        rw [hsplit, List.map_append, List.map_cons] at hnodup'
        have hid_bs : ∀ x ∈ bs, (x.id == role.id) = false := by
          intro x hx
          rw [List.nodup_append] at hnodup'
          have hnd := hnodup'.2.1
          have : role.id ∉ List.map Role.id bs := by
            intro hmem
            exact (List.nodup_cons.mp hnd).1 hmem
          rw [beq_eq_false_iff_ne]
          intro hcontra
          exact this (hcontra ▸ List.mem_map_of_mem Role.id hx)
        -- the filtered role list is as ++ bs
        have hfilter : s.roles.filter (fun r => !(r.id == role.id)) = as ++ bs := by
          rw [hsplit, List.filter_append, List.filter_cons]
          have hrr : ((fun r => !(r.id == role.id)) role) = false := by simp
          simp only [hrr, Bool.false_eq_true, if_false]
          have h1 : as.filter (fun r => !(r.id == role.id)) = as :=
            List.filter_eq_self.mpr (fun a ha => by simp [hid_as a ha])
          have h2 : bs.filter (fun r => !(r.id == role.id)) = bs :=
            List.filter_eq_self.mpr (fun a ha => by simp [hid_bs a ha])
          rw [h1, h2]
        have hcountsplit : defaultCount as + defaultCount bs = 1 := by
          unfold defaultCount at *
          rw [hsplit, List.countP_append, List.countP_cons] at i1
          simp [hdef] at i1
          omega
        simp only [deleteRoleH, hfind, hdef, Bool.false_eq_true, if_false, hd]
        refine ⟨?_, ?_, ?_⟩
        · show defaultCount (s.roles.filter (fun r => !(r.id == role.id))) = 1
          rw [hfilter]
          unfold defaultCount at *
          rw [List.countP_append]
          exact hcountsplit
        · show (List.map Role.id (s.roles.filter (fun r => !(r.id == role.id)))).Nodup
          rw [hfilter]
          have hsub : (as ++ bs).Sublist (as ++ role :: bs) :=
            List.Sublist.append_left (List.sublist_cons_self role bs) as
          have := List.Sublist.map Role.id hsub
          rw [← hsplit] at this
          exact List.Sublist.nodup this i2
        · intro x hx
          show x.roleId ∈ List.map Role.id (s.roles.filter (fun r => !(r.id == role.id)))
          rw [hfilter]
          simp only [List.mem_map] at hx ⊢
          obtain ⟨u, hu, hux⟩ := hx
          by_cases hur : (u.roleId == role.id) = true
          · rw [if_pos hur] at hux
            refine ⟨d, hdab, ?_⟩
            rw [← hux]
          · rw [if_neg (by simpa using hur)] at hux
            subst hux
            have hmem := i3 u hu
            rw [hsplit, List.map_append, List.map_cons] at hmem
            rcases List.mem_append.mp hmem with h' | h'
            · obtain ⟨y, hy, hyx⟩ := List.mem_map.mp h'
              exact ⟨y, List.mem_append_left _ hy, hyx⟩
            · rcases List.mem_cons.mp h' with h' | h'
              · exact absurd (beq_iff_eq.mpr h') hur
              · obtain ⟨y, hy, hyx⟩ := List.mem_map.mp h'
                exact ⟨y, List.mem_append_right _ hy, hyx⟩


theorem storeInv_patchRoleH (s : Store) (rid : String)
    (name description : Option String) (isDefault : Option Bool) (now : String)
    (h : StoreInv s) :
    StoreInv (patchRoleH s rid name description isDefault now).2 := by
  obtain ⟨i1, i2, i3⟩ := h
  cases hfind : s.roles.find? (fun r => r.id == rid) with
  | none => simpa [patchRoleH, hfind] using ⟨i1, i2, i3⟩
  | some role =>
    obtain ⟨hp, as, bs, hsplit, hprev'⟩ := List.find?_eq_some.mp hfind
    have hprev : ∀ x ∈ as, (x.id == rid) = false := by
      intro x hx
      simpa using hprev' x hx
    have hkeep : ∀ c : Role, c.id = role.id → c.isDefault = role.isDefault →
        StoreInv { s with roles := setFirst (fun x => x.id == rid) c s.roles } := by
      intro c hcid hcdef
      have hset : setFirst (fun x => x.id == rid) c s.roles = as ++ c :: bs := by
        rw [hsplit]
        exact setFirst_append hprev hp c bs
      refine ⟨?_, ?_, ?_⟩
      · show defaultCount (setFirst (fun x => x.id == rid) c s.roles) = 1
        rw [hset]
        unfold defaultCount at *
        rw [hsplit, List.countP_append, List.countP_cons] at i1
        rw [List.countP_append, List.countP_cons, hcdef]
        exact i1
      · show (List.map Role.id (setFirst (fun x => x.id == rid) c s.roles)).Nodup
        rw [hset, List.map_append, List.map_cons, hcid]
        rw [hsplit, List.map_append, List.map_cons] at i2
        exact i2
      · intro u hu
        show u.roleId ∈
          List.map Role.id (setFirst (fun x => x.id == rid) c s.roles)
        rw [hset, List.map_append, List.map_cons, hcid]
        have hm := i3 u hu
        rw [hsplit, List.map_append, List.map_cons] at hm
        exact hm
    by_cases hconf : (match name with
      | some n => s.roles.any (fun r => r.name == n && !(r.id == role.id))
      | none => false) = true
    · simpa [patchRoleH, hfind, hconf] using ⟨i1, i2, i3⟩
    · simp only [Bool.not_eq_true] at hconf
      cases isDefault with
      | none =>
        simp only [patchRoleH, hfind, hconf, Bool.false_eq_true, if_false]
        by_cases hb : ((updateField role.name name).2 ||
            (updateFieldOpt role.description description).2) = true
        · rw [if_pos hb]
          exact hkeep _ rfl rfl
        · rw [if_neg hb]
          exact hkeep _ rfl rfl
      | some b =>
        simp only [patchRoleH, hfind, hconf, Bool.false_eq_true, if_false]
        by_cases hbe : b = role.isDefault
        · rw [if_pos hbe]
          by_cases hb : ((updateField role.name name).2 ||
              (updateFieldOpt role.description description).2) = true
          · rw [if_pos hb]
            exact hkeep _ rfl rfl
          · rw [if_neg hb]
            exact hkeep _ rfl rfl
        · rw [if_neg hbe]
          by_cases hbf : b = false
          · rw [if_pos hbf]
            exact hkeep _ rfl rfl
          · rw [if_neg hbf]
            have hrdef : role.isDefault = false := by
              cases b
              · exact absurd rfl hbf
              · cases hrd : role.isDefault
                · rfl
                · rw [hrd] at hbe
                  exact absurd rfl hbe
            cases hclear : clearDefaultRole (setFirst (fun x => x.id == rid) { role with name := (updateField role.name name).1, description := (updateFieldOpt role.description description).1 } s.roles) with
            | none =>
              simp only [hclear]
              exact hkeep _ rfl rfl
            | some list2 =>
              simp only [hclear]
              have hlist1 : setFirst (fun x => x.id == rid) { role with name := (updateField role.name name).1, description := (updateFieldOpt role.description description).1 } s.roles = as ++ ({ role with name := (updateField role.name name).1, description := (updateFieldOpt role.description description).1 } : Role) :: bs := by
                rw [hsplit]
                exact setFirst_append hprev hp _ bs
              rw [hlist1] at hclear
              obtain ⟨as', bs', hl2, hmapa, hmapb, hcount⟩ :=
                clearDefaultRole_decomp
                  (x := { role with name := (updateField role.name name).1, description := (updateFieldOpt role.description description).1 })
                  hrdef hclear
              have hprev2 : ∀ x ∈ as', (x.id == rid) = false :=
                forall_id_ne_of_map_eq hmapa hprev
              have hset2 : setFirst (fun x => x.id == rid) ({ role with name := (updateField role.name name).1, description := (updateFieldOpt role.description description).1, isDefault := true, updatedAt := now } : Role) list2 = as' ++ ({ role with name := (updateField role.name name).1, description := (updateFieldOpt role.description description).1, isDefault := true, updatedAt := now } : Role) :: bs' := by
                rw [hl2]
                exact setFirst_append
                  (a := { role with name := (updateField role.name name).1, description := (updateFieldOpt role.description description).1 })
                  hprev2 hp _ bs'
              have hcountsplit : defaultCount as + defaultCount bs = 1 := by
                unfold defaultCount at *
                rw [hsplit, List.countP_append, List.countP_cons] at i1
                simp [hrdef] at i1
                omega
              refine ⟨?_, ?_, ?_⟩
              · show defaultCount (setFirst (fun x => x.id == rid) _ list2) = 1
                rw [hset2]
                unfold defaultCount at *
                rw [List.countP_append, List.countP_cons]
                simp only [if_true]
                omega
              · show (List.map Role.id
                    (setFirst (fun x => x.id == rid) _ list2)).Nodup
                rw [hset2, List.map_append, List.map_cons, hmapa, hmapb]
                rw [hsplit, List.map_append, List.map_cons] at i2
                exact i2
              · intro u hu
                show u.roleId ∈
                  List.map Role.id (setFirst (fun x => x.id == rid) _ list2)
                rw [hset2, List.map_append, List.map_cons, hmapa, hmapb]
                have hm := i3 u hu
                rw [hsplit, List.map_append, List.map_cons] at hm
                exact hm

theorem storeInv_seed : StoreInv dataSeed := by decide

theorem storeInv_step (s : Store) (op : Op) (h : StoreInv s)
    (hfresh : freshOk s op = true) : StoreInv (handle s op).2 := by
  cases op with
  | getUsers search pageQ => exact storeInv_getUsersH s search pageQ h
  | getUser uid => exact storeInv_getUserH s uid h
  | patchUser uid f l r now => exact storeInv_patchUserH s uid f l r now h
  | postUser f l r newId now photo =>
    exact storeInv_postUserH s f l r newId now photo h
  | deleteUser uid => exact storeInv_deleteUserH s uid h
  | getRoles search pageQ => exact storeInv_getRolesH s search pageQ h
  | getRole rid => exact storeInv_getRoleH s rid h
  | patchRole rid n d b now => exact storeInv_patchRoleH s rid n d b now h
  | postRole n d b newId now =>
    refine storeInv_postRoleH s n d b newId now h ?_
    intro hmem
    obtain ⟨r, hr, hrid⟩ := List.mem_map.mp hmem
    have hany : s.roles.any (fun r => r.id == newId) = true :=
      List.any_eq_true.mpr ⟨r, hr, beq_iff_eq.mpr hrid⟩
    rw [freshOk, hany] at hfresh
    simp at hfresh
  | deleteRole rid => exact storeInv_deleteRoleH s rid h
  | reset => exact storeInv_seed

theorem storeInv_runOps (ops : List Op) : ∀ s : Store, StoreInv s →
    goodRun s ops = true → StoreInv (runOps s ops) := by
  induction ops with
  | nil =>
    intro s h _
    exact h
  | cons op ops ih =>
    intro s h hg
    rw [goodRun, Bool.and_eq_true] at hg
    obtain ⟨h1, h2⟩ := hg
    rw [runOps]
    exact ih _ (storeInv_step s op h h1) h2

/-- C1: starting from the seeded store, after every sequence of completed
HTTP operations (POST /roles, PATCH /roles/:id, DELETE /roles/:id, the
user operations, and reset) in which every generated role id is fresh,
exactly one role in the roles collection has `isDefault == true`. -/
theorem c1_exactly_one_default (ops : List Op)
    (hg : goodRun dataSeed ops = true) :
    defaultCount (runOps dataSeed ops).roles = 1 :=
  (storeInv_runOps ops dataSeed storeInv_seed hg).1

theorem c1_exactly_one_default_witness :
    goodRun dataSeed c1RunOps = true ∧
      defaultCount (runOps dataSeed c1RunOps).roles = 1 :=
  ⟨by decide, c1_exactly_one_default c1RunOps (by decide)⟩

/-- C2: in every store state reachable from the seed by a sequence of
completed HTTP operations (with fresh generated role ids), every user's
`roleId` equals the id of some role currently present in the roles
collection. -/
theorem c2_referential_integrity (ops : List Op)
    (hg : goodRun dataSeed ops = true) :
    ∀ u ∈ (runOps dataSeed ops).users,
      u.roleId ∈ (runOps dataSeed ops).roles.map Role.id :=
  (storeInv_runOps ops dataSeed storeInv_seed hg).2.2

theorem c2_referential_integrity_witness :
    goodRun dataSeed c2RunOps = true ∧
      ∀ u ∈ (runOps dataSeed c2RunOps).users,
        u.roleId ∈ (runOps dataSeed c2RunOps).roles.map Role.id :=
  ⟨by decide, c2_referential_integrity c2RunOps (by decide)⟩

theorem find?_setFirst {α : Type} {p : α → Bool} {l : List α} {a : α}
    (hfind : l.find? p = some a) {c : α} (hc : p c = true) :
    (setFirst p c l).find? p = some c := by
  induction l with
  | nil => simp [List.find?] at hfind
  | cons x xs ih =>
    by_cases hx : p x
    · simp only [setFirst, hx, if_true]
      rw [List.find?_cons_of_pos _ hc]
    · simp only [setFirst, hx, Bool.false_eq_true, if_false]
      rw [List.find?_cons_of_neg _ (by simpa using hx)] at hfind ⊢
      exact ih hfind

/-- C5: with `chanceOfServerError = 1`, every request (any method, path,
body) is answered `500 {message: "Server Error"}` and the route handler is
never invoked, so the store is untouched; with `chanceOfServerError = 0`
no request is short-circuited by fault injection. -/
theorem c5_fault_injection (r : ℚ) (h0 : 0 ≤ r) (h1 : r < 1) (s : Store)
    (op : Op) :
    serve r 1 s op = (.err 500 "Server Error", s) ∧
      serve r 0 s op = handle s op := by
  constructor
  · have hf : faulted r 1 = true := decide_eq_true h1
    simp [serve, hf]
  · have hf : faulted r 0 = false := by
      have hn : ¬(r < 0) := not_lt.mpr h0
      simpa [faulted] using hn
    simp [serve, hf]

theorem c5_fault_injection_witness :
    serve (1 / 2 : ℚ) 1 dataSeed (.getRole "not-a-role") =
        (.err 500 "Server Error", dataSeed) ∧
      serve (1 / 2 : ℚ) 0 dataSeed (.getRole "not-a-role") =
        handle dataSeed (.getRole "not-a-role") :=
  c5_fault_injection (1 / 2) (by norm_num) (by norm_num) dataSeed
    (.getRole "not-a-role")

theorem c6_counterexample :
    (handle c6Store (.patchUser "u1" none none (some "r1")
        "2025-06-01T00:00:00.000Z")).2.users.map User.updatedAt =
        ["2025-06-01T00:00:00.000Z"] ∧
      c6Store.users.map User.updatedAt = ["2024-01-01T00:00:00.000Z"] ∧
      ("2025-06-01T00:00:00.000Z" : String) ≠ "2024-01-01T00:00:00.000Z" := by
  refine ⟨by decide, by decide, by decide⟩

/-- C6 (amended): on PATCH /users/:id of an existing user whose supplied
`roleId` (if truthy) resolves, `updatedAt` is refreshed iff `first`
actually changed, `last` actually changed, or a truthy `roleId` was
supplied at all — even one equal to the user's current `roleId`.  A PATCH
supplying only unchanged `first`/`last` values and no `roleId` leaves
`updatedAt` unchanged. -/
theorem c6_patch_user_updatedAt (s : Store) (uid : String)
    (first last roleId : Option String) (now : String) (u : User)
    (hfind : s.users.find? (fun x => x.id == uid) = some u)
    (hrole : ∀ rid, jsTruthyStr roleId = some rid →
      s.roles.any (fun r => r.id == rid) = true) :
    respUpdatedAt (handle s (.patchUser uid first last roleId now)).1 =
      some (if (updateField u.first first).2 || (updateField u.last last).2
          || (jsTruthyStr roleId).isSome then now else u.updatedAt) := by
  show respUpdatedAt (patchUserH s uid first last roleId now).1 = _
  cases htr : jsTruthyStr roleId with
  | some rid =>
    have hany := hrole rid htr
    simp [patchUserH, hfind, htr, hany, respUpdatedAt]
  | none =>
    by_cases hb : ((updateField u.first first).2 ||
        (updateField u.last last).2) = true
    · simp [patchUserH, hfind, htr, hb, respUpdatedAt]
    · simp only [Bool.not_eq_true] at hb
      simp [patchUserH, hfind, htr, hb, respUpdatedAt]

theorem c6_patch_user_updatedAt_witness :
    respUpdatedAt (handle c6Store (.patchUser "u1" none none (some "r1")
        "2025-06-01T00:00:00.000Z")).1 =
      some (if (updateField "Ann" none).2 || (updateField "Lee" none).2
          || (jsTruthyStr (some "r1")).isSome then "2025-06-01T00:00:00.000Z"
        else "2024-01-01T00:00:00.000Z") :=
  c6_patch_user_updatedAt c6Store "u1" none none (some "r1")
    "2025-06-01T00:00:00.000Z"
    ⟨"u1", "Ann", "Lee", "r1", none, "2024-01-01T00:00:00.000Z",
      "2024-01-01T00:00:00.000Z"⟩
    (by decide)
    (by
      intro rid hr
      simp [jsTruthyStr] at hr
      subst hr
      decide)

/-- C9: a PATCH /users/:id that supplies a new, different, non-falsy
`first` together with a truthy `roleId` resolving to no role answers
`400 {message: "Referenced role not found"}`, but the stored user's
`first` (and `last`, per `updateField`) have already been changed, and
`updatedAt` is not refreshed. -/
theorem c9_patch_user_not_atomic (s : Store) (uid : String) (f : String)
    (last : Option String) (rid : String) (now : String) (u : User)
    (hfind : s.users.find? (fun x => x.id == uid) = some u)
    (hf1 : f ≠ "") (hf2 : f ≠ u.first) (hr1 : rid ≠ "")
    (hr2 : s.roles.any (fun r => r.id == rid) = false) :
    (handle s (.patchUser uid (some f) last (some rid) now)).1 =
        .err 400 "Referenced role not found" ∧
      (handle s (.patchUser uid (some f) last (some rid) now)).2.users.find?
          (fun x => x.id == uid) =
        some { u with first := f, last := (updateField u.last last).1 } := by
  have htr : jsTruthyStr (some rid) = some rid := by simp [jsTruthyStr, hr1]
  have hfval : (updateField u.first (some f)).1 = f := by
    simp [updateField, hf1, hf2]
  constructor
  · show (patchUserH s uid (some f) last (some rid) now).1 = _
    simp [patchUserH, hfind, htr, hr2]
  · show (patchUserH s uid (some f) last (some rid) now).2.users.find?
      (fun x => x.id == uid) = _
    simp only [patchUserH, hfind, htr, hr2, Bool.false_eq_true, if_false]
    rw [hfval]
    have hpu := List.find?_some (p := fun (x : User) => x.id == uid) hfind
    exact find?_setFirst
      (c := { u with first := f, last := (updateField u.last last).1 })
      hfind hpu

theorem c9_patch_user_not_atomic_witness :
    (handle c6Store (.patchUser "u1" (some "Amy") none (some "zzz")
        "2025-07-01T00:00:00.000Z")).1 =
        .err 400 "Referenced role not found" ∧
      (handle c6Store (.patchUser "u1" (some "Amy") none (some "zzz")
          "2025-07-01T00:00:00.000Z")).2.users.find?
          (fun x => x.id == "u1") =
        some { (⟨"u1", "Ann", "Lee", "r1", none, "2024-01-01T00:00:00.000Z", "2024-01-01T00:00:00.000Z"⟩ : User) with first := "Amy", last := (updateField "Lee" none).1 } :=
  c9_patch_user_not_atomic c6Store "u1" "Amy" none "zzz"
    "2025-07-01T00:00:00.000Z"
    ⟨"u1", "Ann", "Lee", "r1", none, "2024-01-01T00:00:00.000Z",
      "2024-01-01T00:00:00.000Z"⟩
    (by decide) (by decide) (by decide) (by decide) (by decide)

theorem find?_isDefault_filter {l : List Role} {d : Role} {rid : String}
    (hd : l.find? (fun x => x.isDefault) = some d)
    (hsafe : ∀ x ∈ l, x.id = rid → x.isDefault = false) :
    (l.filter (fun x => !(x.id == rid))).find? (fun x => x.isDefault) =
      some d := by
  induction l with
  | nil => simp [List.find?] at hd
  | cons x xs ih =>
    by_cases hx : x.isDefault = true
    · rw [List.find?_cons_of_pos _ hx] at hd
      have hxid : (x.id == rid) = false := by
        rw [beq_eq_false_iff_ne]
        intro hcontra
        have hfalse := hsafe x (by simp) hcontra
        rw [hfalse] at hx
        exact absurd hx (by simp)
      rw [List.filter_cons]
      simp only [hxid, Bool.not_false, if_true]
      rw [List.find?_cons_of_pos _ hx]
      exact hd
    · rw [List.find?_cons_of_neg _ (by simpa using hx)] at hd
      have hih := ih hd (fun y hy => hsafe y (by simp [hy]))
      rw [List.filter_cons]
      by_cases hxid : (x.id == rid) = true
      · simp only [hxid, Bool.not_true, Bool.false_eq_true, if_false]
        exact hih
      · simp only [Bool.not_eq_true] at hxid
        simp only [hxid, Bool.not_false, if_true]
        rw [List.find?_cons_of_neg _ (by simpa using hx)]
        exact hih

/-- C4: DELETE /roles/:id on the current default role answers
`400 {message: "Cannot delete default role"}` and changes nothing; on an
existing non-default role (role ids being distinct, as reachable stores
guarantee) it reassigns every user whose `roleId` equals the deleted
role's id to the current default role's id, removes exactly that role
(role count decreases by one), and the default role is unchanged. -/
theorem c4_delete_role (s : Store) (rid : String) (r : Role)
    (hfind : s.roles.find? (fun x => x.id == rid) = some r) :
    (r.isDefault = true →
      handle s (.deleteRole rid) =
        (.err 400 "Cannot delete default role", s)) ∧
    (r.isDefault = false → (s.roles.map Role.id).Nodup →
      ∀ d, s.roles.find? (fun x => x.isDefault) = some d →
        handle s (.deleteRole rid) =
          (.okRole r,
            ⟨s.users.map (fun u =>
                if u.roleId == r.id then { u with roleId := d.id } else u),
              s.roles.filter (fun x => !(x.id == r.id))⟩) ∧
        (s.roles.filter (fun x => !(x.id == r.id))).length + 1 =
          s.roles.length ∧
        (s.roles.filter (fun x => !(x.id == r.id))).find?
          (fun x => x.isDefault) = some d) := by
  constructor
  · intro hdef
    show deleteRoleH s rid = _
    simp [deleteRoleH, hfind, hdef]
  · intro hdef hnd d hd
    obtain ⟨hp, as, bs, hsplit, hprev'⟩ := List.find?_eq_some.mp hfind
    have hprev : ∀ x ∈ as, (x.id == rid) = false := by
      intro x hx
      simpa using hprev' x hx
    have hrid : r.id = rid := beq_iff_eq.mp hp
    have hid_bs : rid ∉ bs.map Role.id := by
      rw [hsplit, List.map_append, List.map_cons] at hnd
      rw [List.nodup_append] at hnd
      have hnc := hnd.2.1
      rw [hrid] at hnc
      exact (List.nodup_cons.mp hnc).1
    have hsafe : ∀ x ∈ s.roles, x.id = r.id → x.isDefault = false := by
      intro x hx hxid
      rw [hrid] at hxid
      rw [hsplit] at hx
      rcases List.mem_append.mp hx with h' | h'
      · have hne := hprev x h'
        rw [beq_eq_false_iff_ne] at hne
        exact absurd hxid hne
      · rcases List.mem_cons.mp h' with h' | h'
        · rw [h']
          exact hdef
        · exact absurd (hxid ▸ List.mem_map_of_mem Role.id h') hid_bs
    refine ⟨?_, ?_, ?_⟩
    · show deleteRoleH s rid = _
      simp [deleteRoleH, hfind, hdef, getDefaultRole, hd]
    · have hfilter : s.roles.filter (fun x => !(x.id == r.id)) = as ++ bs := by
        rw [hsplit, List.filter_append, List.filter_cons]
        have hrr : ((fun x => !(x.id == r.id)) r) = false := by simp
        simp only [hrr, Bool.false_eq_true, if_false]
        have h1 : as.filter (fun x => !(x.id == r.id)) = as :=
          List.filter_eq_self.mpr (fun a ha => by
            rw [hrid]
            simp [hprev a ha])
        have h2 : bs.filter (fun x => !(x.id == r.id)) = bs :=
          List.filter_eq_self.mpr (fun a ha => by
            simp only [Bool.not_eq_eq_eq_not, Bool.not_true,
              beq_eq_false_iff_ne, ne_eq]
            intro hcontra
            exact hid_bs (by
              rw [← hrid, ← hcontra]
              exact List.mem_map_of_mem Role.id ha))
        rw [h1, h2]
      rw [hfilter, hsplit]
      simp [List.length_append]
      omega
    · exact hrid ▸ find?_isDefault_filter hd (hrid ▸ hsafe)

theorem c4_delete_role_witness :
    handle dataSeed (.deleteRole "6c0a71c0-a5bc-44f8-8634-60f44840d92a") =
        (.err 400 "Cannot delete default role", dataSeed) ∧
      (dataSeed.roles.filter
          (fun x => !(x.id == "1a235261-fa93-4845-ab48-ee23895998e6"))).length
        + 1 = dataSeed.roles.length := by
  constructor
  · exact (c4_delete_role dataSeed "6c0a71c0-a5bc-44f8-8634-60f44840d92a"
      ⟨"6c0a71c0-a5bc-44f8-8634-60f44840d92a", "Member", some "Members are the default role in the organization.", true, "2024-08-01T00:00:00.000Z", "2024-08-01T00:00:00.000Z"⟩
      (by decide)).1 (by decide)
  · have h2 := (c4_delete_role dataSeed "1a235261-fa93-4845-ab48-ee23895998e6"
      ⟨"1a235261-fa93-4845-ab48-ee23895998e6", "Engineering", some "Engineers build and maintain the software that powers our products and services.", false, "2024-08-02T00:00:00.000Z", "2024-08-02T00:00:00.000Z"⟩
      (by decide)).2 (by decide) (by decide)
      ⟨"6c0a71c0-a5bc-44f8-8634-60f44840d92a", "Member", some "Members are the default role in the organization.", true, "2024-08-01T00:00:00.000Z", "2024-08-01T00:00:00.000Z"⟩
      (by decide)
    exact h2.2.1

theorem ceilNatDiv_mul_ge {n ps : Nat} (hps : 0 < ps) :
    n ≤ ceilNatDiv n ps * ps := by
  unfold ceilNatDiv
  have hmod := Nat.div_add_mod (n + ps - 1) ps
  have hlt : (n + ps - 1) % ps < ps := Nat.mod_lt _ hps
  rw [Nat.mul_comm]
  generalize hgen : ps * ((n + ps - 1) / ps) = m at hmod ⊢
  omega

theorem ceilNatDiv_mul_lt {n ps : Nat} (hps : 0 < ps) :
    ceilNatDiv n ps * ps < n + ps := by
  unfold ceilNatDiv
  have hmod := Nat.div_add_mod (n + ps - 1) ps
  have hlt : (n + ps - 1) % ps < ps := Nat.mod_lt _ hps
  rw [Nat.mul_comm]
  generalize hgen : ps * ((n + ps - 1) / ps) = m at hmod ⊢
  omega

theorem jsSlice_length_le {α : Type} (l : List α) (a : Int) (k : Nat) :
    (jsSlice l a (a + k)).length ≤ k := by
  simp only [jsSlice, List.length_take, List.length_drop]
  split_ifs <;> omega

theorem jsSlice_length_eq {α : Type} (l : List α) (a : Int) (k : Nat)
    (h0 : 0 ≤ a) (hk : a + k ≤ (l.length : Int)) :
    (jsSlice l a (a + k)).length = k := by
  simp only [jsSlice, List.length_take, List.length_drop]
  split_ifs <;> omega

theorem jsSlice_eq_nil {α : Type} (l : List α) (a b : Int)
    (h0 : 0 ≤ a) (ha : (l.length : Int) ≤ a) :
    jsSlice l a b = [] := by
  apply List.eq_nil_of_length_eq_zero
  simp only [jsSlice, List.length_take, List.length_drop]
  split_ifs <;> omega

theorem c3_counterexample :
    respDataLen (handle dataSeed (.getUsers none (some (-1)))).1 = some 6 ∧
      respPages (handle dataSeed (.getUsers none (some (-1)))).1 = some 2 := by
  constructor <;> decide

/-- C3 (amended): for every listing envelope, `pages = ceil(count / ps)`
and `next`/`prev` follow the formulas of the claim for any coerced page
number, and `data.length ≤ ps`; but the in-range/out-of-range clauses hold
as the claim states them only for coerced pages ≥ 1: every page `1 ≤ p <
pages` is full, and `p > pages` (with `p ≥ 1`) gives an empty slice.  A
negative page indexes `Array.slice` from the end of the collection and can
return a non-empty window. -/
theorem c3_pagination_amended {α : Type} (l : List α) (ps : Nat)
    (pageQ : Option Int) (hps : 0 < ps) :
    (mkPaged ps pageQ l).pages = ceilNatDiv l.length ps ∧
    (mkPaged ps pageQ l).next =
      (if jsCoercePage pageQ < (ceilNatDiv l.length ps : Int) then
        some (jsCoercePage pageQ + 1) else none) ∧
    (mkPaged ps pageQ l).prev =
      (if 1 < jsCoercePage pageQ then some (jsCoercePage pageQ - 1)
        else none) ∧
    (mkPaged ps pageQ l).data.length ≤ ps ∧
    (1 ≤ jsCoercePage pageQ →
      jsCoercePage pageQ < (ceilNatDiv l.length ps : Int) →
      (mkPaged ps pageQ l).data.length = ps) ∧
    (1 ≤ jsCoercePage pageQ →
      (ceilNatDiv l.length ps : Int) < jsCoercePage pageQ →
      (mkPaged ps pageQ l).data = []) := by
  have hsplit : jsCoercePage pageQ * (ps : Int) =
      (jsCoercePage pageQ - 1) * ps + (ps : Int) := by ring
  have hge : (l.length : Int) ≤ (ceilNatDiv l.length ps : Int) * ps := by
    exact_mod_cast ceilNatDiv_mul_ge hps
  have hlt : (ceilNatDiv l.length ps : Int) * ps < l.length + ps := by
    exact_mod_cast ceilNatDiv_mul_lt (n := l.length) hps
  refine ⟨rfl, rfl, rfl, ?_, ?_, ?_⟩
  · show (jsSlice l ((jsCoercePage pageQ - 1) * ps)
      (jsCoercePage pageQ * ps)).length ≤ ps
    rw [hsplit]
    exact jsSlice_length_le l _ ps
  · intro hp1 hp2
    show (jsSlice l ((jsCoercePage pageQ - 1) * ps)
      (jsCoercePage pageQ * ps)).length = ps
    rw [hsplit]
    apply jsSlice_length_eq
    · exact mul_nonneg (by omega) (by positivity)
    · have hmul : jsCoercePage pageQ * (ps : Int) ≤
          ((ceilNatDiv l.length ps : Int) - 1) * ps :=
        mul_le_mul_of_nonneg_right (by omega) (by positivity)
      have hring : ((ceilNatDiv l.length ps : Int) - 1) * ps =
          (ceilNatDiv l.length ps : Int) * ps - ps := by ring
      have hback : (jsCoercePage pageQ - 1) * (ps : Int) + ps =
          jsCoercePage pageQ * ps := by ring
      linarith
  · intro hp1 hp2
    apply jsSlice_eq_nil
    · exact mul_nonneg (by omega) (by positivity)
    · have hmul : (ceilNatDiv l.length ps : Int) * ps ≤
          (jsCoercePage pageQ - 1) * ps :=
        mul_le_mul_of_nonneg_right (by omega) (by positivity)
      linarith

theorem c3_pagination_amended_witness :
    (mkPaged 10 (some 2) dataSeed.users).pages =
        ceilNatDiv dataSeed.users.length 10 ∧
      (mkPaged 10 (some 2) dataSeed.users).data.length ≤ 10 := by
  have h := c3_pagination_amended dataSeed.users 10 (some 2) (by norm_num)
  exact ⟨h.1, h.2.2.2.1⟩

theorem c8_counterexample :
    (handle c8Store (.getUsers none none)).2.users ≠ c8Store.users ∧
      ((handle c8Store (.getUsers none none)).2.users.map User.id =
        ["u2", "u1"] ∧ c8Store.users.map User.id = ["u1", "u2"]) := by
  refine ⟨by decide, by decide, by decide⟩

/-- C8 (amended): GET /users and GET /roles never insert, delete, or
mutate any element of either collection — afterwards each collection is a
permutation of what it was — but without a truthy search term the listed
collection is re-sorted in place (descending `createdAt`), so the relative
order of its elements can change; with a truthy search term the store is
entirely unchanged, order included. -/
theorem c8_get_purity (s : Store) (search : Option String)
    (pageQ : Option Int) :
    ((handle s (.getUsers search pageQ)).2.users.Perm s.users ∧
      (handle s (.getUsers search pageQ)).2.roles = s.roles ∧
      (∀ t, search = some t → t ≠ "" →
        (handle s (.getUsers search pageQ)).2 = s)) ∧
    ((handle s (.getRoles search pageQ)).2.roles.Perm s.roles ∧
      (handle s (.getRoles search pageQ)).2.users = s.users ∧
      (∀ t, search = some t → t ≠ "" →
        (handle s (.getRoles search pageQ)).2 = s)) := by
  cases hts : jsTruthyStr search with
  | some t =>
    constructor
    · cases hfts : fullTextSearch userGetField s.users ["first", "last"] t with
      | error e =>
        refine ⟨?_, ?_, ?_⟩ <;>
          simp [handle, getUsersH, getPagedData, hts, hfts, List.Perm.refl]
      | ok filtered =>
        refine ⟨?_, ?_, ?_⟩ <;>
          simp [handle, getUsersH, getPagedData, hts, hfts, List.Perm.refl]
    · cases hfts : fullTextSearch roleGetField s.roles ["name", "description"] t with
      | error e =>
        refine ⟨?_, ?_, ?_⟩ <;>
          simp [handle, getRolesH, getPagedData, hts, hfts, List.Perm.refl]
      | ok filtered =>
        refine ⟨?_, ?_, ?_⟩ <;>
          simp [handle, getRolesH, getPagedData, hts, hfts, List.Perm.refl]
  | none =>
    constructor
    · refine ⟨?_, ?_, ?_⟩
      · simpa [handle, getUsersH, getPagedData, hts] using
          sortRecords_perm User.createdAt s.users
      · simp [handle, getUsersH, getPagedData, hts]
      · intro t hsearch ht
        rw [hsearch] at hts
        simp [jsTruthyStr, ht] at hts
    · refine ⟨?_, ?_, ?_⟩
      · simpa [handle, getRolesH, getPagedData, hts] using
          sortRecords_perm Role.createdAt s.roles
      · simp [handle, getRolesH, getPagedData, hts]
      · intro t hsearch ht
        rw [hsearch] at hts
        simp [jsTruthyStr, ht] at hts

theorem c8_get_purity_witness :
    (handle c8Store (.getUsers (some "ann") none)).2 = c8Store ∧
      (handle c8Store (.getRoles (some "mem") none)).2 = c8Store := by
  have h1 := (c8_get_purity c8Store (some "ann") none).1.2.2 "ann" rfl
    (by decide)
  have h2 := (c8_get_purity c8Store (some "mem") none).2.2.2 "mem" rfl
    (by decide)
  exact ⟨h1, h2⟩

theorem matchFields_users (u : User) (t : String) :
    matchFields userGetField u t ["first", "last"] =
      .ok (jsIncludes (jsToLower u.first) t || jsIncludes (jsToLower u.last) t) := by
  by_cases h1 : jsIncludes (jsToLower u.first) t = true
  · simp [matchFields, userGetField, h1]
  · simp only [Bool.not_eq_true] at h1
    by_cases h2 : jsIncludes (jsToLower u.last) t = true
    · simp [matchFields, userGetField, h1, h2]
    · simp only [Bool.not_eq_true] at h2
      simp [matchFields, userGetField, h1, h2]

theorem fullTextSearch_users (data : List User) (t : String) :
    fullTextSearch userGetField data ["first", "last"] t =
      .ok (data.filter (fun u => jsIncludes (jsToLower u.first) (jsToLower t) ||
        jsIncludes (jsToLower u.last) (jsToLower t))) := by
  unfold fullTextSearch
  induction data with
  | nil => rfl
  | cons x xs ih =>
    rw [fullTextSearchAux, matchFields_users x (jsToLower t), ih,
      List.filter_cons]

theorem matchFields_roles (r : Role) (t : String) (dv : String)
    (hd : r.description = some dv) :
    matchFields roleGetField r t ["name", "description"] =
      .ok (jsIncludes (jsToLower r.name) t || jsIncludes (jsToLower dv) t) := by
  by_cases h1 : jsIncludes (jsToLower r.name) t = true
  · simp [matchFields, roleGetField, h1]
  · simp only [Bool.not_eq_true] at h1
    by_cases h2 : jsIncludes (jsToLower dv) t = true
    · simp [matchFields, roleGetField, h1, h2, hd]
    · simp only [Bool.not_eq_true] at h2
      simp [matchFields, roleGetField, h1, h2, hd]

theorem fullTextSearch_roles (data : List Role) (t : String)
    (hd : ∀ r ∈ data, r.description.isSome) :
    fullTextSearch roleGetField data ["name", "description"] t =
      .ok (data.filter (fun r => jsIncludes (jsToLower r.name) (jsToLower t) ||
        jsIncludes (jsToLower (r.description.getD "")) (jsToLower t))) := by
  unfold fullTextSearch
  induction data with
  | nil => rfl
  | cons x xs ih =>
    obtain ⟨dv, hdv⟩ := Option.isSome_iff_exists.mp (hd x (by simp))
    have hgetd : x.description.getD "" = dv := by rw [hdv]; rfl
    rw [fullTextSearchAux, matchFields_roles x (jsToLower t) dv hdv,
      ih (fun r hr => hd r (by simp [hr])), List.filter_cons, hgetd]

/-- C7: for a non-empty search term, a user is in the filtered set iff the
lowercased term is a substring of its lowercased `first` or `last`; a role
(all declared fields defined, as in every API-reachable store) iff the
lowercased term is a substring of its lowercased `name` or `description`;
an absent or empty term performs no filtering (the whole sorted collection
is paged, for both routes); a term matching no item yields an empty data
slice with `pages = 0`. -/
theorem c7_search_semantics (t : String) (ht : t ≠ "") (us : List User)
    (rs : List Role) (hrs : ∀ r ∈ rs, r.description.isSome) (ps : Nat)
    (pageQ : Option Int) (hps : 0 < ps) :
    (∀ res, fullTextSearch userGetField us ["first", "last"] t = .ok res →
      ∀ x, x ∈ res ↔ x ∈ us ∧
        (jsIncludes (jsToLower x.first) (jsToLower t) = true ∨
          jsIncludes (jsToLower x.last) (jsToLower t) = true)) ∧
    (∀ res, fullTextSearch roleGetField rs ["name", "description"] t =
        .ok res →
      ∀ x, x ∈ res ↔ x ∈ rs ∧
        (jsIncludes (jsToLower x.name) (jsToLower t) = true ∨
          jsIncludes (jsToLower (x.description.getD "")) (jsToLower t) = true)) ∧
    (getPagedData ps userGetField User.createdAt ["first", "last"] none pageQ
        us =
      .ok (mkPaged ps pageQ (sortRecords User.createdAt us),
        sortRecords User.createdAt us) ∧
      getPagedData ps userGetField User.createdAt ["first", "last"] (some "")
        pageQ us =
      .ok (mkPaged ps pageQ (sortRecords User.createdAt us),
        sortRecords User.createdAt us) ∧
      getPagedData ps roleGetField Role.createdAt ["name", "description"]
        none pageQ rs =
      .ok (mkPaged ps pageQ (sortRecords Role.createdAt rs),
        sortRecords Role.createdAt rs)) ∧
    (fullTextSearch userGetField us ["first", "last"] t = .ok [] →
      getPagedData ps userGetField User.createdAt ["first", "last"] (some t)
          pageQ us = .ok (mkPaged ps pageQ [], us) ∧
      (mkPaged ps pageQ ([] : List User)).data = [] ∧
      (mkPaged ps pageQ ([] : List User)).pages = 0) := by
  refine ⟨?_, ?_, ⟨?_, ?_, ?_⟩, ?_⟩
  · intro res hres x
    rw [fullTextSearch_users] at hres
    injection hres with hres
    subst hres
    simp [List.mem_filter, Bool.or_eq_true]
  · intro res hres x
    rw [fullTextSearch_roles rs t hrs] at hres
    injection hres with hres
    subst hres
    simp [List.mem_filter, Bool.or_eq_true]
  · rfl
  · rfl
  · rfl
  · intro hempty
    have hts : jsTruthyStr (some t) = some t := by simp [jsTruthyStr, ht]
    refine ⟨?_, ?_, ?_⟩
    · simp only [getPagedData, hts, hempty, sortRecords]
    · simp [mkPaged, jsSlice]
    · show ceilNatDiv 0 ps = 0
      unfold ceilNatDiv
      exact Nat.div_eq_of_lt (by omega)

theorem c7_search_semantics_witness :
    (mkPaged 10 none ([] : List User)).pages = 0 ∧
      getPagedData 10 userGetField User.createdAt ["first", "last"] none none
        seedUsers =
      .ok (mkPaged 10 none (sortRecords User.createdAt seedUsers),
        sortRecords User.createdAt seedUsers) := by
  have h := c7_search_semantics "qqq" (by decide) seedUsers seedRoles
    (by decide) 10 none (by norm_num)
  exact ⟨(h.2.2.2 rfl).2.2, h.2.2.1.1⟩

theorem c10_counterexample :
    fullTextSearch roleGetField c10Roles ["name", "description"] "admin" =
        .ok c10Roles ∧
      (c10Roles.map Role.description = [none] ∧ ("admin" : String) ≠ "") := by
  refine ⟨rfl, by decide, by decide⟩

/-- C10 (amended): `fullTextSearch` over the roles collection is partial:
if some role's optional `description` is `undefined` and the lowercased
term is not a substring of that role's lowercased `name` (the field
declared before `description`), the whole search throws a `TypeError`
instead of excluding the item.  A term matching the `name` short-circuits
the field loop before `description.toString()` is reached, so such a
search completes. -/
theorem c10_search_type_error (rs : List Role) (t : String) (r : Role)
    (hr : r ∈ rs) (hd : r.description = none)
    (hn : jsIncludes (jsToLower r.name) (jsToLower t) = false) :
    fullTextSearch roleGetField rs ["name", "description"] t = .error () := by
  unfold fullTextSearch
  revert hr
  induction rs with
  | nil =>
    intro hr
    cases hr
  | cons x xs ih =>
    intro hr
    rcases List.mem_cons.mp hr with hx | hx
    · subst hx
      have hm : matchFields roleGetField r (jsToLower t) ["name", "description"] =
          .error () := by
        simp [matchFields, roleGetField, hn, hd]
      rw [fullTextSearchAux, hm]
    · rw [fullTextSearchAux]
      cases hm : matchFields roleGetField x (jsToLower t) ["name", "description"] with
      | error e =>
        cases e
        rfl
      | ok b =>
        rw [ih hx]

theorem c10_search_type_error_witness :
    fullTextSearch roleGetField c10Roles ["name", "description"] "zz" =
      .error () :=
  c10_search_type_error c10Roles "zz"
    ⟨"r1", "Admin", none, true, "2024-01-01T00:00:00.000Z",
      "2024-01-01T00:00:00.000Z"⟩
    (by decide) rfl (by decide)
